import Mathlib

/-!
# Verification of the fine-tuning lifecycle of Report_Edit_Auto_FT

Shallow embedding of the four Netlify serverless handlers:
`store-training-data.js` (Sample Collector), `fine-tune.js` (Fine-Tune
Launcher), `check-finetune-status.js` (Fine-Tune Status Poller) and the
model-selection slice of `generate-report.js` (Report Section Generator).

External services are modelled explicitly:
* the Supabase `app_settings` table is a key→string map `Settings`
  (`String → Option String`) with last-write-wins `upsertSetting` and
  `deleteSetting`;
* the Supabase `training_data` table is a `List Sample`, insert appends;
* each external call that can fail (insert, count, upload, job creation,
  job retrieval, settings writes, unlink) gets a Boolean oracle in an
  environment record; a `false` oracle means the call reports an error
  (for supabase-js this is an error object in the result, for the OpenAI
  SDK and `fs` a thrown exception — the handlers treat the two
  differently and the embedding follows each call site of the source).

JavaScript `Number(x)` coercion of a rating value is represented by its
result: `Option ℚ`, where `none` stands for `NaN` and `some q` for a
(finite) numeric result, since the handlers only ever branch on
`!isNaN(val) && val >= 9`.
-/

namespace ReportFT

/-! ## Settings store (`app_settings` key/value table) -/

/-- The `app_settings` table: a durable key→string map. -/
abbrev Settings := String → Option String

/-- `upsert({key, value}, {onConflict: 'key'})`: insert-or-replace. -/
def upsertSetting (s : Settings) (k v : String) : Settings :=
  fun q => if q = k then some v else s q

/-- `delete().eq('key', k)`: remove the row with key `k`. -/
def deleteSetting (s : Settings) (k : String) : Settings :=
  fun q => if q = k then none else s q

/-- Key holding the in-flight tuning job handle. -/
def jobIdKey : String := "current_finetune_job_id"

/-- Key holding the promoted fine-tuned model identifier. -/
def activeModelKey : String := "active_finetuned_model"

/-- Key holding the human-readable in-progress flag. -/
def inProgressKey : String := "finetune_in_progress"

theorem upsertSetting_same (s : Settings) (k v : String) :
    upsertSetting s k v k = some v := by
  simp [upsertSetting]

theorem upsertSetting_other (s : Settings) (k v q : String) (h : q ≠ k) :
    upsertSetting s k v q = s q := by
  simp [upsertSetting, h]

theorem deleteSetting_same (s : Settings) (k : String) :
    deleteSetting s k k = none := by
  simp [deleteSetting]

theorem deleteSetting_other (s : Settings) (k q : String) (h : q ≠ k) :
    deleteSetting s k q = s q := by
  simp [deleteSetting, h]

/-! ## Sample Collector (`store-training-data.js`) -/

/-- The `ratings` mapping of a request: section name to the result of
`Number(ratings[section])` (`none` = `NaN`). -/
abbrev Ratings := List (String × Option ℚ)

/-- `allSections.every(section => { const val = Number(ratings[section]);
return !isNaN(val) && val >= 9; })`. -/
def allAboveNine (ratings : Ratings) : Bool :=
  ratings.all fun p =>
    match p.2 with
    | none => false
    | some v => decide ((9 : ℚ) ≤ v)

/-- A row of the `training_data` table: the `report_json` payload
`{ text: finalReportText, ratings, metadata }`. -/
structure Sample where
  text : String
  ratings : Ratings
  metadata : Option String
deriving DecidableEq

/-- Outcomes of the external calls made by the Sample Collector. -/
structure StoreEnv where
  /-- the `training_data` insert succeeds -/
  insertOk : Bool
  /-- the post-insert `count: 'exact'` query succeeds -/
  countOk : Bool
  /-- the fire-and-forget POST to `/.netlify/functions/fine-tune` succeeds -/
  fineTuneOk : Bool
deriving DecidableEq

/-- The distinct response bodies of `store-training-data.js`. -/
inductive StoreOutcome where
  /-- 400 `Missing finalReportText or ratings in request body.` -/
  | missingFields
  /-- 400 `No sections in ratings.` -/
  | noSections
  /-- 200 `Report not stored because not all ratings are >= 9.` -/
  | notStored
  /-- 200 `Successfully stored training data (all ratings >= 9).` -/
  | stored
  /-- 500 after `Failed to insert training data into Supabase.` -/
  | insertFailed
  /-- 500 after `Failed to count training_data rows.` -/
  | countFailed
deriving DecidableEq

/-- What a Sample Collector invocation produced: HTTP status, response
body, the `training_data` table afterwards, and whether the fine-tune
trigger POST was issued. -/
structure StoreResult where
  statusCode : Nat
  outcome : StoreOutcome
  store : List Sample
  fineTuneTriggered : Bool
deriving DecidableEq

/-- `exports.handler` of `store-training-data.js` on a POST request.
`ratings?` is `none` when the body has no `ratings` field (JS falsy);
an empty `finalReportText` is falsy as well and hits the same 400. -/
def storeTrainingDataHandler (finalReportText : String)
    (ratings? : Option Ratings) (metadata : Option String)
    (env : StoreEnv) (store : List Sample) : StoreResult :=
  match ratings? with
  | none => ⟨400, .missingFields, store, false⟩
  | some ratings =>
    if finalReportText = "" then ⟨400, .missingFields, store, false⟩
    else if ratings.length = 0 then ⟨400, .noSections, store, false⟩
    else if allAboveNine ratings = false then ⟨200, .notStored, store, false⟩
    else if env.insertOk = false then ⟨500, .insertFailed, store, false⟩
    else
      let store1 := store ++ [⟨finalReportText, ratings, metadata⟩]
      if env.countOk = false then ⟨500, .countFailed, store1, false⟩
      else
        let count := store1.length
        ⟨200, .stored, store1, decide (count % 5 = 0 ∧ count > 0)⟩

/-- `allAboveNine` agrees with the spec-side condition "every value,
coerced to a number, is not NaN and is ≥ 9". -/
theorem allAboveNine_iff (rs : Ratings) :
    allAboveNine rs = true ↔ ∀ p ∈ rs, ∃ q : ℚ, p.2 = some q ∧ 9 ≤ q := by
  simp only [allAboveNine, List.all_eq_true]
  constructor
  · intro h p hp
    have := h p hp
    cases hv : p.2 with
    | none => rw [hv] at this; simp at this
    | some q => rw [hv] at this; exact ⟨q, rfl, by simpa using this⟩
  · intro h p hp
    obtain ⟨q, hq, hq9⟩ := h p hp
    rw [hq]
    simpa using hq9

/-- C1: for a Store-sample request with non-empty `finalReportText` and a
non-empty `ratings` mapping, when the insert call itself works, exactly
one Sample is appended to the `training_data` table iff every rating
value, coerced to a number, is not NaN and is ≥ 9; when some value is
below 9 or non-numeric, the table is unchanged and the response is a 200
"not stored" outcome, not an error. -/
theorem store_sample_iff_all_ratings_high
    (t : String) (rs : Ratings) (md : Option String)
    (env : StoreEnv) (store : List Sample)
    (ht : t ≠ "") (hr : rs ≠ []) (hins : env.insertOk = true) :
    ((storeTrainingDataHandler t (some rs) md env store).store.length
        = store.length + 1
      ↔ ∀ p ∈ rs, ∃ q : ℚ, p.2 = some q ∧ 9 ≤ q) ∧
    (allAboveNine rs = false →
      (storeTrainingDataHandler t (some rs) md env store).store = store ∧
      (storeTrainingDataHandler t (some rs) md env store).statusCode = 200 ∧
      (storeTrainingDataHandler t (some rs) md env store).outcome
        = StoreOutcome.notStored) := by
  have hrl : rs.length ≠ 0 := by simpa using hr
  rw [← allAboveNine_iff]
  cases hall : allAboveNine rs with
  | false =>
    simp [storeTrainingDataHandler, ht, hrl, hall]
  | true =>
    cases hc : env.countOk with
    | false => simp [storeTrainingDataHandler, ht, hrl, hall, hins, hc]
    | true => simp [storeTrainingDataHandler, ht, hrl, hall, hins, hc]

/-- Witness for `store_sample_iff_all_ratings_high` at a concrete
request: ratings `{introduction ↦ 9, background ↦ 10}` all qualify, so
the table grows by one. -/
theorem store_sample_iff_all_ratings_high_witness :
    ("report" : String) ≠ "" ∧
    ([("introduction", some (9 : ℚ)), ("background", some 10)] : Ratings) ≠ [] ∧
    (StoreEnv.mk true true true).insertOk = true ∧
    ((storeTrainingDataHandler "report"
        (some [("introduction", some 9), ("background", some 10)]) none
        ⟨true, true, true⟩ []).store.length = ([] : List Sample).length + 1
      ↔ ∀ p ∈ ([("introduction", some (9 : ℚ)), ("background", some 10)] : Ratings),
          ∃ q : ℚ, p.2 = some q ∧ 9 ≤ q) :=
  ⟨by decide, by decide, rfl,
    (store_sample_iff_all_ratings_high "report"
      [("introduction", some 9), ("background", some 10)] none
      ⟨true, true, true⟩ [] (by decide) (by decide) rfl).1⟩

/-- C2: after a successful insertion (all ratings qualify, insert and
count both succeed), the fine-tune trigger POST is issued iff the
post-insert sample count is a strictly positive multiple of 5. -/
theorem finetune_trigger_iff_multiple_of_five
    (t : String) (rs : Ratings) (md : Option String)
    (env : StoreEnv) (store : List Sample)
    (ht : t ≠ "") (hr : rs ≠ []) (hall : allAboveNine rs = true)
    (hins : env.insertOk = true) (hcnt : env.countOk = true) :
    (storeTrainingDataHandler t (some rs) md env store).store.length
        = store.length + 1 ∧
    ((storeTrainingDataHandler t (some rs) md env store).fineTuneTriggered = true
      ↔ 0 < store.length + 1 ∧ (store.length + 1) % 5 = 0) := by
  have hrl : rs.length ≠ 0 := by simpa using hr
  simp [storeTrainingDataHandler, ht, hrl, hall, hins, hcnt, and_comm]

/-- Witness for `finetune_trigger_iff_multiple_of_five`: inserting the
fifth sample triggers the launcher. -/
theorem finetune_trigger_iff_multiple_of_five_witness :
    ("report" : String) ≠ "" ∧
    ([("introduction", some (10 : ℚ))] : Ratings) ≠ [] ∧
    allAboveNine [("introduction", some 10)] = true ∧
    ((storeTrainingDataHandler "report" (some [("introduction", some 10)]) none
        ⟨true, true, true⟩ (List.replicate 4 ⟨"old", [], none⟩)).fineTuneTriggered = true
      ↔ 0 < (List.replicate 4 (⟨"old", [], none⟩ : Sample)).length + 1 ∧
        ((List.replicate 4 (⟨"old", [], none⟩ : Sample)).length + 1) % 5 = 0) :=
  ⟨by decide, by decide, by decide,
    (finetune_trigger_iff_multiple_of_five "report" [("introduction", some 10)] none
      ⟨true, true, true⟩ (List.replicate 4 ⟨"old", [], none⟩)
      (by decide) (by decide) (by decide) rfl rfl).2⟩

/-- C10: the Store-sample endpoint is not atomic with respect to its
response: when the post-insert count query fails after a successful
qualifying insertion, the endpoint returns a 500 error even though the
sample was already appended and remains stored. -/
theorem store_sample_count_failure_after_insert
    (t : String) (rs : Ratings) (md : Option String)
    (env : StoreEnv) (store : List Sample)
    (ht : t ≠ "") (hr : rs ≠ []) (hall : allAboveNine rs = true)
    (hins : env.insertOk = true) (hcnt : env.countOk = false) :
    (storeTrainingDataHandler t (some rs) md env store).statusCode = 500 ∧
    (storeTrainingDataHandler t (some rs) md env store).outcome
      = StoreOutcome.countFailed ∧
    (storeTrainingDataHandler t (some rs) md env store).store
      = store ++ [⟨t, rs, md⟩] := by
  have hrl : rs.length ≠ 0 := by simpa using hr
  simp [storeTrainingDataHandler, ht, hrl, hall, hins, hcnt]

/-- Witness for `store_sample_count_failure_after_insert` at a concrete
request whose count query fails. -/
theorem store_sample_count_failure_after_insert_witness :
    ("report" : String) ≠ "" ∧
    ([("introduction", some (9 : ℚ))] : Ratings) ≠ [] ∧
    (storeTrainingDataHandler "report" (some [("introduction", some 9)]) none
        ⟨true, false, true⟩ []).statusCode = 500 ∧
    (storeTrainingDataHandler "report" (some [("introduction", some 9)]) none
        ⟨true, false, true⟩ []).store = [] ++ [⟨"report", [("introduction", some 9)], none⟩] :=
  ⟨by decide, by decide,
    (store_sample_count_failure_after_insert "report" [("introduction", some 9)] none
      ⟨true, false, true⟩ [] (by decide) (by decide) (by decide) rfl rfl).1,
    (store_sample_count_failure_after_insert "report" [("introduction", some 9)] none
      ⟨true, false, true⟩ [] (by decide) (by decide) (by decide) rfl rfl).2.2⟩

/-! ## Fine-Tune Status Poller (`check-finetune-status.js`) -/

/-- Outcomes of the external calls made by one poll invocation.
`fineTunedModel` is `jobInfo.fine_tuned_model` (`none` = `null`).
The three `…Ok` write flags say whether the corresponding store write
takes effect; the handler ignores their error results either way
(`updateModelError` is only logged, the delete and the flag upsert are
not even checked), so they influence the resulting settings only. -/
structure PollEnv where
  /-- the `maybeSingle()` query for `current_finetune_job_id` errors -/
  jobRowError : Bool
  /-- `openai.fineTuning.jobs.retrieve(jobId)` succeeds (else it throws) -/
  retrieveOk : Bool
  /-- `jobInfo.status` -/
  jobStatus : String
  /-- `jobInfo.fine_tuned_model` -/
  fineTunedModel : Option String
  /-- the upsert of `active_finetuned_model` takes effect -/
  writeModelOk : Bool
  /-- the delete of `current_finetune_job_id` takes effect -/
  deleteJobOk : Bool
  /-- the upsert of `finetune_in_progress` takes effect -/
  writeFlagOk : Bool

/-- The distinct response bodies of `check-finetune-status.js`. -/
inductive PollOutcome where
  /-- 500 `Cannot fetch current fine-tune job ID` -/
  | fetchError
  /-- 200 `No fine-tune job currently in progress.` -/
  | noJob
  /-- 500 `Failed to check fine-tune status` (retrieve threw) -/
  | checkError
  /-- 200 `Fine-tune succeeded. Model = …`, status `succeeded` -/
  | succeededMsg (model : Option String)
  /-- 200 `Fine-tune job failed. ID cleared.`, status `failed` -/
  | failedMsg
  /-- 200 `Job status = …. Still in progress.` -/
  | inProgress (status : String)

/-- What one poll invocation produced: HTTP status, response body, and
the `app_settings` table afterwards. -/
structure PollResult where
  statusCode : Nat
  outcome : PollOutcome
  settings : Settings

/-- `exports.handler` of `check-finetune-status.js` on a non-OPTIONS
request. The truthiness test `if (newModelName)` fails for `null` and
for the empty string. -/
def checkFinetuneStatusHandler (settings : Settings) (env : PollEnv) :
    PollResult :=
  if env.jobRowError = true then ⟨500, .fetchError, settings⟩
  else
    match settings jobIdKey with
    | none => ⟨200, .noJob, settings⟩
    | some _ =>
      if env.retrieveOk = false then ⟨500, .checkError, settings⟩
      else if env.jobStatus = "succeeded" then
        let s1 :=
          match env.fineTunedModel with
          | none => settings
          | some m =>
            if m = "" then settings
            else if env.writeModelOk = true then
              upsertSetting settings activeModelKey m
            else settings
        let s2 := if env.deleteJobOk = true then deleteSetting s1 jobIdKey else s1
        let s3 := if env.writeFlagOk = true then
            upsertSetting s2 inProgressKey "false"
          else s2
        ⟨200, .succeededMsg env.fineTunedModel, s3⟩
      else if env.jobStatus = "failed" then
        let s2 := if env.deleteJobOk = true then
            deleteSetting settings jobIdKey
          else settings
        let s3 := if env.writeFlagOk = true then
            upsertSetting s2 inProgressKey "false"
          else s2
        ⟨200, .failedMsg, s3⟩
      else ⟨200, .inProgress env.jobStatus, settings⟩

/-- C3: when a job id is present and the status query returns
`succeeded` with a non-empty resulting model `m` (and the three store
writes take effect), the poller promotes `m` to
`active_finetuned_model`, deletes `current_finetune_job_id` — so the key
is absent afterwards — and sets `finetune_in_progress` to `"false"`. -/
theorem poll_succeeded_promotes_model
    (settings : Settings) (env : PollEnv) (j m : String)
    (hjob : settings jobIdKey = some j)
    (hrow : env.jobRowError = false) (hret : env.retrieveOk = true)
    (hst : env.jobStatus = "succeeded")
    (hm : env.fineTunedModel = some m) (hm' : m ≠ "")
    (hw1 : env.writeModelOk = true) (hw2 : env.deleteJobOk = true)
    (hw3 : env.writeFlagOk = true) :
    (checkFinetuneStatusHandler settings env).settings activeModelKey = some m ∧
    (checkFinetuneStatusHandler settings env).settings jobIdKey = none ∧
    (checkFinetuneStatusHandler settings env).settings inProgressKey
      = some "false" := by
  have hkey1 : activeModelKey ≠ inProgressKey := by decide
  have hkey2 : activeModelKey ≠ jobIdKey := by decide
  have hkey3 : jobIdKey ≠ inProgressKey := by decide
  simp [checkFinetuneStatusHandler, hrow, hret, hst, hm, hjob, hw1, hw2, hw3, hm',
    upsertSetting_same, upsertSetting_other, deleteSetting_same, deleteSetting_other,
    hkey1, hkey2, hkey3]

/-- Witness for `poll_succeeded_promotes_model` on a store holding only
the job id, with the job reported `succeeded` as `ft:abc123`. -/
theorem poll_succeeded_promotes_model_witness :
    upsertSetting (fun _ => none) jobIdKey "job-1" jobIdKey = some "job-1" ∧
    (checkFinetuneStatusHandler (upsertSetting (fun _ => none) jobIdKey "job-1")
        ⟨false, true, "succeeded", some "ft:abc123", true, true, true⟩).settings
        activeModelKey = some "ft:abc123" ∧
    (checkFinetuneStatusHandler (upsertSetting (fun _ => none) jobIdKey "job-1")
        ⟨false, true, "succeeded", some "ft:abc123", true, true, true⟩).settings
        jobIdKey = none ∧
    (checkFinetuneStatusHandler (upsertSetting (fun _ => none) jobIdKey "job-1")
        ⟨false, true, "succeeded", some "ft:abc123", true, true, true⟩).settings
        inProgressKey = some "false" :=
  ⟨upsertSetting_same _ _ _,
    poll_succeeded_promotes_model (upsertSetting (fun _ => none) jobIdKey "job-1")
      ⟨false, true, "succeeded", some "ft:abc123", true, true, true⟩
      "job-1" "ft:abc123" (upsertSetting_same _ _ _) rfl rfl rfl rfl
      (by decide) rfl rfl rfl⟩

/-- C4: when the job succeeded but `fine_tuned_model` is `null` or
empty, the poller still clears the job id and the in-progress flag, but
never writes `active_finetuned_model`, which keeps its prior value. -/
theorem poll_succeeded_without_model_keeps_active
    (settings : Settings) (env : PollEnv) (j : String)
    (hjob : settings jobIdKey = some j)
    (hrow : env.jobRowError = false) (hret : env.retrieveOk = true)
    (hst : env.jobStatus = "succeeded")
    (hm : env.fineTunedModel = none ∨ env.fineTunedModel = some "")
    (hw2 : env.deleteJobOk = true) (hw3 : env.writeFlagOk = true) :
    (checkFinetuneStatusHandler settings env).settings activeModelKey
      = settings activeModelKey ∧
    (checkFinetuneStatusHandler settings env).settings jobIdKey = none ∧
    (checkFinetuneStatusHandler settings env).settings inProgressKey
      = some "false" := by
  have hkey1 : activeModelKey ≠ inProgressKey := by decide
  have hkey2 : activeModelKey ≠ jobIdKey := by decide
  have hkey3 : jobIdKey ≠ inProgressKey := by decide
  have hbranch :
      (match env.fineTunedModel with
        | none => settings
        | some m =>
          if m = "" then settings
          else if env.writeModelOk = true then
            upsertSetting settings activeModelKey m
          else settings) = settings := by
    rcases hm with hm | hm <;> simp [hm]
  simp [checkFinetuneStatusHandler, hrow, hret, hst, hjob, hw2, hw3, hbranch,
    upsertSetting_same, upsertSetting_other, deleteSetting_same, deleteSetting_other,
    hkey1, hkey2, hkey3]

/-- Witness for `poll_succeeded_without_model_keeps_active`: a poll that
reports `succeeded` with a `null` model keeps the prior active model. -/
theorem poll_succeeded_without_model_keeps_active_witness :
    (upsertSetting (upsertSetting (fun _ => none) activeModelKey "ft:old")
        jobIdKey "job-1") jobIdKey = some "job-1" ∧
    (checkFinetuneStatusHandler
        (upsertSetting (upsertSetting (fun _ => none) activeModelKey "ft:old")
          jobIdKey "job-1")
        ⟨false, true, "succeeded", none, true, true, true⟩).settings activeModelKey
      = (upsertSetting (upsertSetting (fun _ => none) activeModelKey "ft:old")
          jobIdKey "job-1") activeModelKey ∧
    (checkFinetuneStatusHandler
        (upsertSetting (upsertSetting (fun _ => none) activeModelKey "ft:old")
          jobIdKey "job-1")
        ⟨false, true, "succeeded", none, true, true, true⟩).settings jobIdKey
      = none :=
  ⟨upsertSetting_same _ _ _,
    (poll_succeeded_without_model_keeps_active _
      ⟨false, true, "succeeded", none, true, true, true⟩ "job-1"
      (upsertSetting_same _ _ _) rfl rfl rfl (Or.inl rfl) rfl rfl).1,
    (poll_succeeded_without_model_keeps_active _
      ⟨false, true, "succeeded", none, true, true, true⟩ "job-1"
      (upsertSetting_same _ _ _) rfl rfl rfl (Or.inl rfl) rfl rfl).2.1⟩

/-- C5: a poll of a job whose status is neither `succeeded` nor `failed`
leaves the whole settings table untouched — in particular the keys
`active_finetuned_model`, `current_finetune_job_id` and
`finetune_in_progress` are neither written nor deleted. -/
theorem poll_nonterminal_mutates_nothing
    (settings : Settings) (env : PollEnv) (j : String)
    (hjob : settings jobIdKey = some j)
    (hrow : env.jobRowError = false) (hret : env.retrieveOk = true)
    (hs1 : env.jobStatus ≠ "succeeded") (hs2 : env.jobStatus ≠ "failed") :
    (checkFinetuneStatusHandler settings env).settings = settings := by
  simp [checkFinetuneStatusHandler, hrow, hret, hjob, hs1, hs2]

/-- Witness for `poll_nonterminal_mutates_nothing`: polling a `running`
job changes nothing. -/
theorem poll_nonterminal_mutates_nothing_witness :
    (upsertSetting (fun _ => none) jobIdKey "job-1") jobIdKey = some "job-1" ∧
    ("running" : String) ≠ "succeeded" ∧
    (checkFinetuneStatusHandler (upsertSetting (fun _ => none) jobIdKey "job-1")
        ⟨false, true, "running", none, true, true, true⟩).settings
      = upsertSetting (fun _ => none) jobIdKey "job-1" :=
  ⟨upsertSetting_same _ _ _, by decide,
    poll_nonterminal_mutates_nothing (upsertSetting (fun _ => none) jobIdKey "job-1")
      ⟨false, true, "running", none, true, true, true⟩ "job-1"
      (upsertSetting_same _ _ _) rfl rfl (by decide) (by decide)⟩

/-! ## Report Section Generator, model-selection slice
(`generate-report.js`) -/

/-- The fixed fallback model identifier of `generate-report.js`. -/
def defaultModel : String := "gpt-4o-2024-08-06"

/-- `getActiveModel()` of `generate-report.js`: `.single()` errors when
the row is absent and the error branch returns `null`; a present row
yields `data?.value || null`, so an empty value is also `null`.
`readOk = false` models a thrown/errored Supabase read. -/
def getActiveModel (settings : Settings) (readOk : Bool) : Option String :=
  if readOk = false then none
  else
    match settings activeModelKey with
    | none => none
    | some v => if v = "" then none else some v

/-- Outcomes of the external calls made by a section-generation request
(model-selection slice: the prompt assembly and weather lookup do not
touch the settings store). -/
structure GenEnv where
  /-- the Supabase read inside `getActiveModel` succeeds -/
  readOk : Bool
  /-- `openai.chat.completions.create` succeeds (else it throws) -/
  inferenceOk : Bool
  /-- `completion.choices[0].message.content` -/
  completionText : String

/-- What a section-generation request produced: HTTP status, the model
identifier passed to the inference call, and the returned section. -/
structure GenResult where
  statusCode : Nat
  modelUsed : String
  body : Option String

/-- The model-selection and inference tail of `exports.handler` in
`generate-report.js`: `let activeModel = await getActiveModel(); if
(!activeModel) activeModel = 'gpt-4o-2024-08-06';` then the chat
completion with that model. -/
def generateReportHandler (settings : Settings) (env : GenEnv) : GenResult :=
  let activeModel := (getActiveModel settings env.readOk).getD defaultModel
  if env.inferenceOk = false then ⟨500, activeModel, none⟩
  else ⟨200, activeModel, some env.completionText⟩

/-- C9: when `active_finetuned_model` is absent, empty, or its read
fails, the model passed to the inference call is the fixed default and
the generation still succeeds — the read failure is not surfaced. -/
theorem generate_model_fallback
    (settings : Settings) (env : GenEnv)
    (habsent : env.readOk = false ∨ settings activeModelKey = none ∨
      settings activeModelKey = some "")
    (hinf : env.inferenceOk = true) :
    (generateReportHandler settings env).modelUsed = defaultModel ∧
    (generateReportHandler settings env).statusCode = 200 ∧
    (generateReportHandler settings env).body = some env.completionText := by
  have hmodel : getActiveModel settings env.readOk = none := by
    rcases habsent with h | h | h
    · simp [getActiveModel, h]
    · cases hr : env.readOk <;> simp [getActiveModel, h]
    · cases hr : env.readOk <;> simp [getActiveModel, h]
  simp [generateReportHandler, hmodel, hinf]

/-- Witness for `generate_model_fallback`: a failing settings read
still produces a 200 with the default model. -/
theorem generate_model_fallback_witness :
    ((false = false ∨ ((fun _ => none : Settings)) activeModelKey = none ∨
        ((fun _ => none : Settings)) activeModelKey = some "") ∧
      (generateReportHandler (fun _ => none) ⟨false, true, "section text"⟩).modelUsed
        = defaultModel ∧
      (generateReportHandler (fun _ => none) ⟨false, true, "section text"⟩).statusCode
        = 200) :=
  ⟨Or.inl rfl,
    (generate_model_fallback (fun _ => none) ⟨false, true, "section text"⟩
      (Or.inl rfl) rfl).1,
    (generate_model_fallback (fun _ => none) ⟨false, true, "section text"⟩
      (Or.inl rfl) rfl).2.1⟩

/-! ## The training-file interchange format (`fine-tune.js`)

`fine-tune.js` builds one line per sample with `JSON.stringify` on
`{messages: [{role:'system',…},{role:'user',…},{role:'assistant',
content: finalText}]}` and joins the lines with `\n`. We model the JSON
fragment these lines live in (strings, arrays, objects — no numbers,
booleans or null occur in the format), `JSON.stringify`'s serialization
of it including ECMA-262 string escaping, and `JSON.parse` for the same
fragment, to settle the lossless round-trip claim. JavaScript strings
are modelled as Lean `String`s (sequences of Unicode scalar values). -/

/-- A JSON value of the fragment used by the training-file format. -/
inductive Json where
  | str : String → Json
  | arr : List Json → Json
  | obj : List (String × Json) → Json

/-- `{` (written via its code point, and named for use in patterns). -/
def lbraceChar : Char := Char.ofNat 123

/-- `}` (written via its code point). -/
def rbraceChar : Char := Char.ofNat 125

/-- Lowercase hex digit for `n < 16`, as ECMA-262 `UnicodeEscape` emits. -/
def hexDigitChar (n : Nat) : Char :=
  if n < 10 then Char.ofNat (48 + n) else Char.ofNat (87 + n)

/-- ECMA-262 `QuoteJSONString` escaping of one character: the two
mandatory escapes `\"` and `\\`, the five short forms, and `\u00xx` for
the remaining control characters; every other character stands for
itself. -/
def escapeChar (c : Char) : List Char :=
  if c = '\"' then ['\\', '\"']
  else if c = '\\' then ['\\', '\\']
  else if c = Char.ofNat 8 then ['\\', 'b']
  else if c = '\t' then ['\\', 't']
  else if c = '\n' then ['\\', 'n']
  else if c = Char.ofNat 12 then ['\\', 'f']
  else if c = '\r' then ['\\', 'r']
  else if c.toNat < 32 then
    ['\\', 'u', '0', '0', hexDigitChar (c.toNat / 16), hexDigitChar (c.toNat % 16)]
  else [c]

/-- JSON string-body escaping of a character sequence. -/
def escapeList (cs : List Char) : List Char := cs.flatMap escapeChar

mutual

/-- `JSON.stringify` (no indent argument) on the modelled fragment, as a
character sequence. -/
def stringifyJson : Json → List Char
  | .str s => '\"' :: (escapeList s.data ++ ['\"'])
  | .arr xs => '[' :: (stringifyElems xs ++ [']'])
  | .obj ms => lbraceChar :: (stringifyMembers ms ++ [rbraceChar])

/-- Comma-separated serialization of array elements. -/
def stringifyElems : List Json → List Char
  | [] => []
  | [x] => stringifyJson x
  | x :: y :: xs => stringifyJson x ++ ',' :: stringifyElems (y :: xs)

/-- Comma-separated serialization of object members. -/
def stringifyMembers : List (String × Json) → List Char
  | [] => []
  | [(k, v)] => '\"' :: (escapeList k.data ++ '\"' :: ':' :: stringifyJson v)
  | (k, v) :: m :: ms =>
    '\"' :: (escapeList k.data ++ '\"' :: ':' :: stringifyJson v)
      ++ ',' :: stringifyMembers (m :: ms)

end

/-- The fixed system message of every training record. -/
def systemContent : String :=
  "You are a specialized forensic report generator. Provide thorough, professional, consistent content."

/-- The fixed user message of every training record. -/
def userContent : String :=
  "Generate a complete forensic engineering report based on the user’s inputs and data."

/-- The object `fine-tune.js` passes to `JSON.stringify` for one row:
three chat messages whose assistant content is the sample text. -/
def trainingRecord (finalText : String) : Json :=
  .obj [("messages", .arr [
    .obj [("role", .str "system"), ("content", .str systemContent)],
    .obj [("role", .str "user"), ("content", .str userContent)],
    .obj [("role", .str "assistant"), ("content", .str finalText)]])]

/-- One `.jsonl` line: `JSON.stringify` of the training record. -/
def recordLine (finalText : String) : String :=
  ⟨stringifyJson (trainingRecord finalText)⟩

/-- `lines.join('\n')`: the whole `.jsonl` payload, from the `text`
fields of the fetched rows (`r.report_json?.text || ''`). -/
def jsonlContent (rows : List String) : String :=
  String.intercalate "\n" (rows.map recordLine)

/-! ## Fine-Tune Launcher (`fine-tune.js`) -/

/-- Outcomes of the external calls made by one Launcher invocation. -/
structure FineTuneEnv where
  /-- the `training_data` select succeeds -/
  fetchOk : Bool
  /-- `openai.files.create` succeeds (else it throws) -/
  uploadOk : Bool
  /-- `openai.fineTuning.jobs.create` succeeds (else it throws) -/
  createJobOk : Bool
  /-- the id of the created job, `fineTune.id` -/
  fineTuneId : String
  /-- the upsert of `current_finetune_job_id` takes effect; its error
  result is only logged (`console.error`), never thrown -/
  upsertJobIdOk : Bool
  /-- the upsert of `finetune_in_progress` takes effect; its error
  result is not even inspected -/
  upsertFlagOk : Bool
  /-- `fs.unlinkSync(tempFileName)` succeeds; a throw is caught and
  only warned about -/
  unlinkOk : Bool

/-- The distinct response bodies of `fine-tune.js`. -/
inductive FineTuneOutcome where
  /-- 500 after `Could not retrieve training data from Supabase.` -/
  | fetchError
  /-- 200 `No training data found. Nothing to fine-tune.` -/
  | noData
  /-- 500 `Failed to start GPT-4 fine-tune job` (upload threw) -/
  | uploadError
  /-- 500 `Failed to start GPT-4 fine-tune job` (job creation threw) -/
  | createError
  /-- 200 `Fine-tune job started. …` with the job id -/
  | started (fineTuneId : String)
deriving DecidableEq

/-- What one Launcher invocation produced: HTTP status, response body,
the `app_settings` table afterwards, the `.jsonl` payload staged for
upload (`none` when the invocation never built it), and the lifecycle of
the scratch file `/tmp/fine-tune-<uuid>.jsonl`. -/
structure FineTuneResult where
  statusCode : Nat
  outcome : FineTuneOutcome
  settings : Settings
  payload : Option String
  tempCreated : Bool
  tempReleased : Bool

/-- `exports.handler` of `fine-tune.js` on a non-OPTIONS request, over
the `text` fields of the fetched rows. The temp file is written right
after the payload is built; `fs.unlinkSync` is reached only on the path
where both OpenAI calls returned — a throw inside either jumps to the
outer catch, which returns 500 without touching the file. -/
def fineTuneHandler (rows : List String) (settings : Settings)
    (env : FineTuneEnv) : FineTuneResult :=
  if env.fetchOk = false then ⟨500, .fetchError, settings, none, false, false⟩
  else if rows.isEmpty then ⟨200, .noData, settings, none, false, false⟩
  else
    let payload := jsonlContent rows
    if env.uploadOk = false then
      ⟨500, .uploadError, settings, some payload, true, false⟩
    else if env.createJobOk = false then
      ⟨500, .createError, settings, some payload, true, false⟩
    else
      let s1 := if env.upsertJobIdOk = true then
          upsertSetting settings jobIdKey env.fineTuneId
        else settings
      let s2 := if env.upsertFlagOk = true then
          upsertSetting s1 inProgressKey "true"
        else s1
      ⟨200, .started env.fineTuneId, s2, some payload, true, env.unlinkOk⟩

/-- C6 counterexample: the claim "if persisting `current_finetune_job_id`
after job creation fails, the Fine-Tune Launcher reports a launch
failure rather than success" is false at this input — the upsert error
is only logged, the handler still answers 200 with the job id, and the
settings row was never written. -/
theorem launcher_success_despite_jobid_write_failure :
    (fineTuneHandler ["report one"] (fun _ => none)
        ⟨true, true, true, "ftjob-1", false, true, true⟩).statusCode = 200 ∧
    (fineTuneHandler ["report one"] (fun _ => none)
        ⟨true, true, true, "ftjob-1", false, true, true⟩).outcome
      = FineTuneOutcome.started "ftjob-1" ∧
    (fineTuneHandler ["report one"] (fun _ => none)
        ⟨true, true, true, "ftjob-1", false, true, true⟩).settings jobIdKey
      = none := by
  refine ⟨rfl, rfl, ?_⟩
  show upsertSetting (fun _ => none) inProgressKey "true" jobIdKey = none
  rw [upsertSetting_other _ _ _ _ (by decide)]

/-- C6 amended: sample-insert failures in the Sample Collector are
propagated as a 500 with no insertion, and the Collector's response does
not depend on the outcome of the fire-and-forget fine-tune trigger; but
a Settings Store write failure in the Launcher after job creation is
logged and swallowed — the Launcher still reports success with the job
id while `current_finetune_job_id` is left unwritten. -/
theorem write_failure_propagation_amended :
    (∀ (t : String) (rs : Ratings) (md : Option String) (env : StoreEnv)
      (store : List Sample), t ≠ "" → rs ≠ [] → allAboveNine rs = true →
      env.insertOk = false →
      (storeTrainingDataHandler t (some rs) md env store).statusCode = 500 ∧
      (storeTrainingDataHandler t (some rs) md env store).store = store) ∧
    (∀ (t : String) (rs : Option Ratings) (md : Option String)
      (env : StoreEnv) (store : List Sample) (b : Bool),
      storeTrainingDataHandler t rs md ⟨env.insertOk, env.countOk, b⟩ store
        = storeTrainingDataHandler t rs md env store) ∧
    (∀ (rows : List String) (settings : Settings) (env : FineTuneEnv),
      rows ≠ [] → env.fetchOk = true → env.uploadOk = true →
      env.createJobOk = true → env.upsertJobIdOk = false →
      (fineTuneHandler rows settings env).statusCode = 200 ∧
      (fineTuneHandler rows settings env).outcome
        = FineTuneOutcome.started env.fineTuneId ∧
      (fineTuneHandler rows settings env).settings jobIdKey
        = settings jobIdKey) := by
  refine ⟨?_, ?_, ?_⟩
  · intro t rs md env store ht hr hall hins
    have hrl : rs.length ≠ 0 := by simpa using hr
    simp [storeTrainingDataHandler, ht, hrl, hall, hins]
  · intro t rs md env store b
    cases rs with
    | none => rfl
    | some rs => simp only [storeTrainingDataHandler]
  · intro rows settings env hne hf hu hc hj
    have hrows : rows.isEmpty = false := by
      cases rows with
      | nil => exact absurd rfl hne
      | cons a l => rfl
    have hkey : jobIdKey ≠ inProgressKey := by decide
    cases hfl : env.upsertFlagOk with
    | false => simp [fineTuneHandler, hf, hu, hc, hj, hrows, hfl]
    | true =>
      simp [fineTuneHandler, hf, hu, hc, hj, hrows, hfl,
        upsertSetting_other _ _ _ _ hkey]

/-- Witness for `write_failure_propagation_amended`: its Launcher
conjunct applied at a concrete invocation whose job-id upsert fails. -/
theorem write_failure_propagation_amended_witness :
    (["report one"] : List String) ≠ [] ∧
    (fineTuneHandler ["report one"] (fun _ => none)
        ⟨true, true, true, "ftjob-1", false, true, true⟩).statusCode = 200 ∧
    (fineTuneHandler ["report one"] (fun _ => none)
        ⟨true, true, true, "ftjob-1", false, true, true⟩).outcome
      = FineTuneOutcome.started "ftjob-1" :=
  ⟨by decide,
    (write_failure_propagation_amended.2.2 ["report one"] (fun _ => none)
      ⟨true, true, true, "ftjob-1", false, true, true⟩
      (by decide) rfl rfl rfl rfl).1,
    (write_failure_propagation_amended.2.2 ["report one"] (fun _ => none)
      ⟨true, true, true, "ftjob-1", false, true, true⟩
      (by decide) rfl rfl rfl rfl).2.1⟩

/-- C7 counterexample: the claim "every invocation that creates the
temporary serialized payload releases it on every exit path" is false at
this input — the upload throws, the outer catch returns 500, and the
scratch file is never unlinked. -/
theorem temp_file_leak_on_upload_failure :
    (fineTuneHandler ["report one"] (fun _ => none)
        ⟨true, false, true, "ftjob-1", true, true, true⟩).tempCreated = true ∧
    (fineTuneHandler ["report one"] (fun _ => none)
        ⟨true, false, true, "ftjob-1", true, true, true⟩).tempReleased = false ∧
    (fineTuneHandler ["report one"] (fun _ => none)
        ⟨true, false, true, "ftjob-1", true, true, true⟩).statusCode = 500 :=
  ⟨rfl, rfl, rfl⟩

/-- C7 amended: an invocation that reaches the point of creating the
scratch file releases it exactly when the upload and the job creation
both return and the unlink call itself succeeds; on the exit paths where
either OpenAI call throws, the file is left behind. -/
theorem temp_file_release_on_success_path
    (rows : List String) (settings : Settings) (env : FineTuneEnv)
    (hne : rows ≠ []) (hf : env.fetchOk = true) :
    (fineTuneHandler rows settings env).tempCreated = true ∧
    ((fineTuneHandler rows settings env).tempReleased = true ↔
      env.uploadOk = true ∧ env.createJobOk = true ∧ env.unlinkOk = true) := by
  have hrows : rows.isEmpty = false := by
    cases rows with
    | nil => exact absurd rfl hne
    | cons a l => rfl
  cases hu : env.uploadOk with
  | false => simp [fineTuneHandler, hf, hu, hrows]
  | true =>
    cases hc : env.createJobOk with
    | false => simp [fineTuneHandler, hf, hu, hc, hrows]
    | true => simp [fineTuneHandler, hf, hu, hc, hrows]

/-- Witness for `temp_file_release_on_success_path` on a fully
successful invocation: the file is created and released. -/
theorem temp_file_release_on_success_path_witness :
    (["report one"] : List String) ≠ [] ∧
    (fineTuneHandler ["report one"] (fun _ => none)
        ⟨true, true, true, "ftjob-1", true, true, true⟩).tempCreated = true ∧
    ((fineTuneHandler ["report one"] (fun _ => none)
        ⟨true, true, true, "ftjob-1", true, true, true⟩).tempReleased = true ↔
      (true = true ∧ true = true ∧ true = true)) :=
  ⟨by decide,
    temp_file_release_on_success_path ["report one"] (fun _ => none)
      ⟨true, true, true, "ftjob-1", true, true, true⟩ (by decide) rfl⟩

/-! ## `JSON.parse` for the modelled fragment

A recursive-descent parser over character lists, faithful to JSON
(RFC 8259 / ECMA-262 `JSON.parse`) on the string/array/object fragment:
insignificant whitespace is skipped, string bodies understand the two
mandatory escapes, `\/`, the five short forms and `\uXXXX`. Nesting
recursion is bounded by a fuel parameter; `parseJson` supplies
`length + 1` fuel, which dominates any nesting depth the input can
express (every nesting level consumes at least one character). -/

/-- JSON insignificant whitespace. -/
def isJsonWs (c : Char) : Bool :=
  (c == ' ') || (c == '\t') || (c == '\n') || (c == '\r')

/-- Skip insignificant whitespace. -/
def skipWs (cs : List Char) : List Char := cs.dropWhile isJsonWs

/-- Value of one hex digit. -/
def hexVal (c : Char) : Option Nat :=
  if '0' ≤ c ∧ c ≤ '9' then some (c.toNat - 48)
  else if 'a' ≤ c ∧ c ≤ 'f' then some (c.toNat - 87)
  else if 'A' ≤ c ∧ c ≤ 'F' then some (c.toNat - 55)
  else none

/-- Parse the body of a string literal after its opening quote, up to
and including the closing quote; yields the decoded characters and the
remaining input. -/
def parseStringBody : List Char → Option (List Char × List Char)
  | [] => none
  | c :: cs =>
    if c = '\"' then some ([], cs)
    else if c = '\\' then
      match cs with
      | [] => none
      | e :: cs1 =>
        if e = '\"' then (parseStringBody cs1).map fun p => ('\"' :: p.1, p.2)
        else if e = '\\' then (parseStringBody cs1).map fun p => ('\\' :: p.1, p.2)
        else if e = '/' then (parseStringBody cs1).map fun p => ('/' :: p.1, p.2)
        else if e = 'b' then
          (parseStringBody cs1).map fun p => (Char.ofNat 8 :: p.1, p.2)
        else if e = 'f' then
          (parseStringBody cs1).map fun p => (Char.ofNat 12 :: p.1, p.2)
        else if e = 'n' then (parseStringBody cs1).map fun p => ('\n' :: p.1, p.2)
        else if e = 'r' then (parseStringBody cs1).map fun p => ('\r' :: p.1, p.2)
        else if e = 't' then (parseStringBody cs1).map fun p => ('\t' :: p.1, p.2)
        else if e = 'u' then
          match cs1 with
          | h1 :: h2 :: h3 :: h4 :: cs2 =>
            match hexVal h1, hexVal h2, hexVal h3, hexVal h4 with
            | some a, some b, some c3, some d =>
              (parseStringBody cs2).map fun p =>
                (Char.ofNat (((a * 16 + b) * 16 + c3) * 16 + d) :: p.1, p.2)
            | _, _, _, _ => none
          | _ => none
        else none
    else (parseStringBody cs).map fun p => (c :: p.1, p.2)
termination_by l => l.length

mutual

/-- Parse one JSON value of the fragment. -/
def parseValue : Nat → List Char → Option (Json × List Char)
  | 0, _ => none
  | fuel + 1, cs =>
    match skipWs cs with
    | [] => none
    | c :: rest =>
      if c = '\"' then
        match parseStringBody rest with
        | some (body, rest1) => some (.str ⟨body⟩, rest1)
        | none => none
      else if c = '[' then
        match skipWs rest with
        | [] => none
        | c2 :: rest2 =>
          if c2 = ']' then some (.arr [], rest2)
          else
            match parseElems fuel (c2 :: rest2) with
            | some (xs, rest3) => some (.arr xs, rest3)
            | none => none
      else if c = lbraceChar then
        match skipWs rest with
        | [] => none
        | c2 :: rest2 =>
          if c2 = rbraceChar then some (.obj [], rest2)
          else
            match parseMembers fuel (c2 :: rest2) with
            | some (ms, rest3) => some (.obj ms, rest3)
            | none => none
      else none

/-- Parse a non-empty comma-separated element list up to and including
the closing `]`. -/
def parseElems : Nat → List Char → Option (List Json × List Char)
  | 0, _ => none
  | fuel + 1, cs =>
    match parseValue fuel cs with
    | none => none
    | some (v, rest) =>
      match skipWs rest with
      | [] => none
      | c :: rest2 =>
        if c = ',' then
          match parseElems fuel rest2 with
          | some (xs, rest3) => some (v :: xs, rest3)
          | none => none
        else if c = ']' then some ([v], rest2)
        else none

/-- Parse a non-empty comma-separated member list up to and including
the closing `}`. -/
def parseMembers : Nat → List Char → Option (List (String × Json) × List Char)
  | 0, _ => none
  | fuel + 1, cs =>
    match skipWs cs with
    | [] => none
    | c :: rest =>
      if c = '\"' then
        match parseStringBody rest with
        | none => none
        | some (key, rest1) =>
          match skipWs rest1 with
          | [] => none
          | c1 :: rest2 =>
            if c1 = ':' then
              match parseValue fuel rest2 with
              | none => none
              | some (v, rest3) =>
                match skipWs rest3 with
                | [] => none
                | c2 :: rest4 =>
                  if c2 = ',' then
                    match parseMembers fuel rest4 with
                    | some (ms, rest5) => some ((⟨key⟩, v) :: ms, rest5)
                    | none => none
                  else if c2 = rbraceChar then some ([(⟨key⟩, v)], rest4)
                  else none
            else none
      else none

end

/-- `JSON.parse` on the fragment: parse one value with `length + 1`
fuel and require that only whitespace remains. -/
def parseJson (s : String) : Option Json :=
  match parseValue (s.data.length + 1) s.data with
  | some (j, rest) => if skipWs rest = [] then some j else none
  | none => none

mutual

/-- Nesting fuel sufficient to parse the serialization of a value. -/
def jsonFuel : Json → Nat
  | .str _ => 1
  | .arr xs => 1 + fuelElems xs
  | .obj ms => 1 + fuelMembers ms

/-- Fuel for an element list. -/
def fuelElems : List Json → Nat
  | [] => 0
  | x :: xs => 1 + max (jsonFuel x) (fuelElems xs)

/-- Fuel for a member list. -/
def fuelMembers : List (String × Json) → Nat
  | [] => 0
  | (_, v) :: ms => 1 + max (jsonFuel v) (fuelMembers ms)

end

theorem escapeList_nil : escapeList [] = [] := rfl

theorem escapeList_cons (c : Char) (cs : List Char) :
    escapeList (c :: cs) = escapeChar c ++ escapeList cs := by
  simp [escapeList]

theorem hexVal_hexDigitChar {n : Nat} (h : n < 16) :
    hexVal (hexDigitChar n) = some n := by
  interval_cases n <;> decide

theorem skipWs_cons {c : Char} (cs : List Char) (h : isJsonWs c = false) :
    skipWs (c :: cs) = c :: cs := by
  simp [skipWs, List.dropWhile_cons, h]

theorem parseStringBody_escapeList (cs rest : List Char) :
    parseStringBody (escapeList cs ++ '\"' :: rest) = some (cs, rest) := by
  induction cs with
  | nil =>
    rw [escapeList_nil, List.nil_append, parseStringBody.eq_def]
    simp
  | cons c cs ih =>
    rw [escapeList_cons, List.append_assoc]
    by_cases h1 : c = '\"'
    · subst h1; rw [parseStringBody.eq_def]; simp [escapeChar, ih]
    by_cases h2 : c = '\\'
    · subst h2; rw [parseStringBody.eq_def]; simp [escapeChar, ih]
    by_cases h3 : c = Char.ofNat 8
    · subst h3; rw [parseStringBody.eq_def]; simp [escapeChar, ih]
    by_cases h4 : c = '\t'
    · subst h4; rw [parseStringBody.eq_def]; simp [escapeChar, ih]
    by_cases h5 : c = '\n'
    · subst h5; rw [parseStringBody.eq_def]; simp [escapeChar, ih]
    by_cases h6 : c = Char.ofNat 12
    · subst h6; rw [parseStringBody.eq_def]; simp [escapeChar, ih]
    by_cases h7 : c = '\r'
    · subst h7; rw [parseStringBody.eq_def]; simp [escapeChar, ih]
    by_cases h8 : c.toNat < 32
    · have hdiv : c.toNat / 16 < 16 := by omega
      have hmod : c.toNat % 16 < 16 := by omega
      have hh1 : hexVal (hexDigitChar (c.toNat / 16)) = some (c.toNat / 16) :=
        hexVal_hexDigitChar hdiv
      have hh2 : hexVal (hexDigitChar (c.toNat % 16)) = some (c.toNat % 16) :=
        hexVal_hexDigitChar hmod
      have h0 : hexVal '0' = some 0 := by decide
      have harith : c.toNat / 16 * 16 + c.toNat % 16 = c.toNat := by omega
      rw [parseStringBody.eq_def]
      simp [escapeChar, h1, h2, h3, h4, h5, h6, h7, h8,
        h0, hh1, hh2, ih, harith, Char.ofNat_toNat]
    · rw [show escapeChar c = [c] by
        simp [escapeChar, h1, h2, h3, h4, h5, h6, h7, h8]]
      rw [List.cons_append, List.nil_append, parseStringBody.eq_def]
      simp [h1, h2, ih]

theorem stringifyJson_str (s : String) :
    stringifyJson (.str s) = '\"' :: (escapeList s.data ++ ['\"']) := by
  rw [stringifyJson]

theorem stringifyJson_arr (xs : List Json) :
    stringifyJson (.arr xs) = '[' :: (stringifyElems xs ++ [']']) := by
  rw [stringifyJson]

theorem stringifyJson_obj (ms : List (String × Json)) :
    stringifyJson (.obj ms) = lbraceChar :: (stringifyMembers ms ++ [rbraceChar]) := by
  rw [stringifyJson]

theorem stringifyElems_nil : stringifyElems [] = [] := by rw [stringifyElems]

theorem stringifyElems_one (x : Json) : stringifyElems [x] = stringifyJson x := by
  rw [stringifyElems]

theorem stringifyElems_cons2 (x y : Json) (ys : List Json) :
    stringifyElems (x :: y :: ys) = stringifyJson x ++ ',' :: stringifyElems (y :: ys) := by
  rw [stringifyElems]

theorem stringifyMembers_one (k : String) (v : Json) :
    stringifyMembers [(k, v)]
      = '\"' :: (escapeList k.data ++ '\"' :: ':' :: stringifyJson v) := by
  rw [stringifyMembers]

theorem stringifyMembers_cons2 (k : String) (v : Json) (m : String × Json)
    (ms : List (String × Json)) :
    stringifyMembers ((k, v) :: m :: ms)
      = '\"' :: (escapeList k.data ++ '\"' :: ':' :: stringifyJson v)
          ++ ',' :: stringifyMembers (m :: ms) := by
  rw [stringifyMembers]

/-- The serialization of a value starts with `"`, `[` or `{`: never
whitespace, a comma, a colon or a closing bracket. -/
theorem stringifyJson_head (j : Json) : ∃ c cs, stringifyJson j = c :: cs ∧
    isJsonWs c = false ∧ c ≠ ']' ∧ c ≠ rbraceChar ∧ c ≠ ',' := by
  cases j with
  | str s =>
    exact ⟨_, _, stringifyJson_str s, by decide, by decide, by decide, by decide⟩
  | arr xs =>
    exact ⟨_, _, stringifyJson_arr xs, by decide, by decide, by decide, by decide⟩
  | obj ms =>
    exact ⟨_, _, stringifyJson_obj ms, by decide, by decide, by decide, by decide⟩

/-- The serialization of a non-empty element list starts like its first
value's serialization. -/
theorem stringifyElems_head (x : Json) (xs : List Json) : ∃ c cs,
    stringifyElems (x :: xs) = c :: cs ∧ isJsonWs c = false ∧ c ≠ ']' := by
  obtain ⟨c, cs, heq, hws, hbr, _, _⟩ := stringifyJson_head x
  cases xs with
  | nil => exact ⟨c, cs, by rw [stringifyElems_one, heq], hws, hbr⟩
  | cons y ys =>
    exact ⟨c, cs ++ ',' :: stringifyElems (y :: ys),
      by rw [stringifyElems_cons2, heq, List.cons_append], hws, hbr⟩

theorem stringifyMembers_nil : stringifyMembers [] = [] := by rw [stringifyMembers]

/-- The serialization of a non-empty member list starts with the quote
opening its first key. -/
theorem stringifyMembers_head (k : String) (v : Json) (ms : List (String × Json)) :
    ∃ cs, stringifyMembers ((k, v) :: ms) = '\"' :: cs := by
  cases ms with
  | nil => exact ⟨_, stringifyMembers_one k v⟩
  | cons m ms =>
    exact ⟨escapeList k.data ++ '\"' :: ':' :: stringifyJson v
        ++ ',' :: stringifyMembers (m :: ms),
      by rw [stringifyMembers_cons2, List.cons_append]⟩



mutual

/-- Parsing inverts serialization for one value, given fuel at least the
value's nesting need. -/
theorem parseValue_stringify : ∀ (j : Json) (fuel : Nat) (rest : List Char),
    jsonFuel j ≤ fuel → parseValue fuel (stringifyJson j ++ rest) = some (j, rest)
  | .str s, fuel, rest, h => by
    cases fuel with
    | zero => rw [jsonFuel] at h; omega
    | succ f =>
      rw [stringifyJson_str, List.cons_append, List.append_assoc,
        List.singleton_append, parseValue.eq_def]
      simp [skipWs_cons _ (by decide : isJsonWs '\"' = false),
        parseStringBody_escapeList]
  | .arr [], fuel, rest, h => by
    cases fuel with
    | zero => rw [jsonFuel] at h; omega
    | succ f =>
      rw [stringifyJson_arr, stringifyElems_nil, List.cons_append, List.nil_append,
        List.singleton_append, parseValue.eq_def]
      simp [skipWs_cons _ (by decide : isJsonWs '[' = false),
        skipWs_cons _ (by decide : isJsonWs ']' = false)]
  | .arr (x :: xs), fuel, rest, h => by
    cases fuel with
    | zero => rw [jsonFuel] at h; omega
    | succ f =>
      have hfe : fuelElems (x :: xs) ≤ f := by
        rw [jsonFuel] at h; omega
      obtain ⟨c, cs, heq, hws, hbr⟩ := stringifyElems_head x xs
      have hrec : parseElems f (c :: (cs ++ ']' :: rest)) = some (x :: xs, rest) := by
        rw [show c :: (cs ++ ']' :: rest) = stringifyElems (x :: xs) ++ ']' :: rest from by
          rw [heq, List.cons_append]]
        exact parseElems_stringify x xs f rest hfe
      rw [stringifyJson_arr, List.cons_append, List.append_assoc,
        List.singleton_append, heq, List.cons_append, parseValue.eq_def]
      simp [skipWs_cons _ (by decide : isJsonWs '[' = false),
        skipWs_cons _ hws, hbr, hrec]
  | .obj [], fuel, rest, h => by
    cases fuel with
    | zero => rw [jsonFuel] at h; omega
    | succ f =>
      rw [stringifyJson_obj, stringifyMembers_nil, List.cons_append, List.nil_append,
        List.singleton_append, parseValue.eq_def]
      simp [skipWs_cons _ (by decide : isJsonWs lbraceChar = false),
        skipWs_cons _ (by decide : isJsonWs rbraceChar = false),
        (by decide : lbraceChar ≠ '\"'), (by decide : lbraceChar ≠ '[')]
  | .obj ((k, v) :: ms), fuel, rest, h => by
    cases fuel with
    | zero => rw [jsonFuel] at h; omega
    | succ f =>
      have hfm : fuelMembers ((k, v) :: ms) ≤ f := by
        rw [jsonFuel] at h; omega
      obtain ⟨cs, heq⟩ := stringifyMembers_head k v ms
      have hrec : parseMembers f ('\"' :: (cs ++ rbraceChar :: rest))
          = some ((k, v) :: ms, rest) := by
        rw [show '\"' :: (cs ++ rbraceChar :: rest)
            = stringifyMembers ((k, v) :: ms) ++ rbraceChar :: rest from by
          rw [heq, List.cons_append]]
        exact parseMembers_stringify k v ms f rest hfm
      rw [stringifyJson_obj, List.cons_append, List.append_assoc,
        List.singleton_append, heq, List.cons_append, parseValue.eq_def]
      simp [skipWs_cons _ (by decide : isJsonWs lbraceChar = false),
        skipWs_cons _ (by decide : isJsonWs '\"' = false),
        (by decide : lbraceChar ≠ '\"'), (by decide : lbraceChar ≠ '['),
        (by decide : ('\"' : Char) ≠ rbraceChar), hrec]
termination_by j _ _ _ => sizeOf j

/-- Parsing inverts serialization for a non-empty element list followed
by its closing bracket. -/
theorem parseElems_stringify : ∀ (x : Json) (xs : List Json) (fuel : Nat)
    (rest : List Char), fuelElems (x :: xs) ≤ fuel →
    parseElems fuel (stringifyElems (x :: xs) ++ ']' :: rest) = some (x :: xs, rest)
  | x, [], fuel, rest, h => by
    cases fuel with
    | zero => rw [fuelElems] at h; omega
    | succ f =>
      have hx : jsonFuel x ≤ f := by
        rw [fuelElems] at h; omega
      rw [stringifyElems_one, parseElems.eq_def]
      simp [parseValue_stringify x f (']' :: rest) hx,
        skipWs_cons _ (by decide : isJsonWs ']' = false)]
  | x, y :: ys, fuel, rest, h => by
    cases fuel with
    | zero => rw [fuelElems] at h; omega
    | succ f =>
      have hx : jsonFuel x ≤ f := by
        rw [fuelElems] at h; omega
      have hys : fuelElems (y :: ys) ≤ f := by
        rw [fuelElems] at h; omega
      rw [stringifyElems_cons2, List.append_assoc, List.cons_append,
        parseElems.eq_def]
      simp [parseValue_stringify x f (',' :: (stringifyElems (y :: ys) ++ ']' :: rest)) hx,
        skipWs_cons _ (by decide : isJsonWs ',' = false),
        parseElems_stringify y ys f rest hys]
termination_by x xs _ _ _ => 1 + sizeOf x + sizeOf xs

/-- Parsing inverts serialization for a non-empty member list followed
by its closing brace. -/
theorem parseMembers_stringify : ∀ (k : String) (v : Json)
    (ms : List (String × Json)) (fuel : Nat) (rest : List Char),
    fuelMembers ((k, v) :: ms) ≤ fuel →
    parseMembers fuel (stringifyMembers ((k, v) :: ms) ++ rbraceChar :: rest)
      = some ((k, v) :: ms, rest)
  | k, v, [], fuel, rest, h => by
    cases fuel with
    | zero => rw [fuelMembers] at h; omega
    | succ f =>
      have hv : jsonFuel v ≤ f := by
        rw [fuelMembers] at h; omega
      rw [stringifyMembers_one, List.cons_append, List.append_assoc,
        List.cons_append, List.cons_append, parseMembers.eq_def]
      simp [skipWs_cons _ (by decide : isJsonWs '\"' = false),
        parseStringBody_escapeList,
        skipWs_cons _ (by decide : isJsonWs ':' = false),
        parseValue_stringify v f (rbraceChar :: rest) hv,
        skipWs_cons _ (by decide : isJsonWs rbraceChar = false),
        (by decide : rbraceChar ≠ ',')]
  | k, v, (k2, v2) :: ms, fuel, rest, h => by
    cases fuel with
    | zero => rw [fuelMembers] at h; omega
    | succ f =>
      have hv : jsonFuel v ≤ f := by
        rw [fuelMembers] at h; omega
      have hms : fuelMembers ((k2, v2) :: ms) ≤ f := by
        rw [fuelMembers] at h; omega
      rw [stringifyMembers_cons2, List.append_assoc, List.cons_append,
        List.cons_append, List.append_assoc, List.cons_append, List.cons_append,
        parseMembers.eq_def]
      simp [skipWs_cons _ (by decide : isJsonWs '\"' = false),
        parseStringBody_escapeList,
        skipWs_cons _ (by decide : isJsonWs ':' = false),
        parseValue_stringify v f
          (',' :: (stringifyMembers ((k2, v2) :: ms) ++ rbraceChar :: rest)) hv,
        skipWs_cons _ (by decide : isJsonWs ',' = false),
        parseMembers_stringify k2 v2 ms f rest hms]
termination_by k v ms _ _ _ => 1 + sizeOf v + sizeOf ms

end



/-- Serializations are never empty. -/
theorem stringifyJson_length_pos (j : Json) : 0 < (stringifyJson j).length := by
  obtain ⟨c, cs, heq, -, -, -, -⟩ := stringifyJson_head j
  rw [heq]; simp

/-- Serializations of non-empty element lists are never empty. -/
theorem stringifyElems_length_pos (x : Json) (xs : List Json) :
    0 < (stringifyElems (x :: xs)).length := by
  obtain ⟨c, cs, heq, -, -⟩ := stringifyElems_head x xs
  rw [heq]; simp

mutual

/-- The canonical fuel `length + 1` dominates the nesting need of any
serialized value. -/
theorem jsonFuel_le : ∀ j : Json, jsonFuel j ≤ (stringifyJson j).length
  | .str s => by
    rw [jsonFuel, stringifyJson_str]
    simp
  | .arr [] => by
    rw [jsonFuel, fuelElems, stringifyJson_arr, stringifyElems_nil]
    simp
  | .arr (x :: xs) => by
    have h := fuelElems_le x xs
    rw [jsonFuel, stringifyJson_arr]
    simp only [List.length_cons, List.length_append]
    omega
  | .obj [] => by
    rw [jsonFuel, fuelMembers, stringifyJson_obj, stringifyMembers_nil]
    simp
  | .obj ((k, v) :: ms) => by
    have h := fuelMembers_le k v ms
    rw [jsonFuel, stringifyJson_obj]
    simp only [List.length_cons, List.length_append]
    omega
termination_by j => sizeOf j

/-- Fuel bound for non-empty element lists. -/
theorem fuelElems_le : ∀ (x : Json) (xs : List Json),
    fuelElems (x :: xs) ≤ (stringifyElems (x :: xs)).length + 1
  | x, [] => by
    have h := jsonFuel_le x
    rw [fuelElems, fuelElems, stringifyElems_one]
    omega
  | x, y :: ys => by
    have hx := jsonFuel_le x
    have hys := fuelElems_le y ys
    rw [fuelElems, stringifyElems_cons2]
    simp only [List.length_append, List.length_cons]
    omega
termination_by x xs => 1 + sizeOf x + sizeOf xs

/-- Fuel bound for non-empty member lists. -/
theorem fuelMembers_le : ∀ (k : String) (v : Json) (ms : List (String × Json)),
    fuelMembers ((k, v) :: ms) ≤ (stringifyMembers ((k, v) :: ms)).length + 1
  | _k, v, [] => by
    have h := jsonFuel_le v
    rw [fuelMembers, fuelMembers, stringifyMembers_one]
    simp only [List.length_cons, List.length_append]
    omega
  | k, v, (k2, v2) :: ms => by
    have hv := jsonFuel_le v
    have hms := fuelMembers_le k2 v2 ms
    rw [fuelMembers, stringifyMembers_cons2]
    simp only [List.length_append, List.length_cons]
    omega
termination_by _ v ms => 1 + sizeOf v + sizeOf ms

end

/-- Full printer–parser round trip on the fragment: `JSON.parse`
recovers exactly the value `JSON.stringify` serialized. -/
theorem parseJson_stringifyJson (j : Json) : parseJson ⟨stringifyJson j⟩ = some j := by
  have hfuel : jsonFuel j ≤ (stringifyJson j).length + 1 :=
    le_trans (jsonFuel_le j) (Nat.le_succ _)
  have h := parseValue_stringify j ((stringifyJson j).length + 1) [] hfuel
  rw [List.append_nil] at h
  simp [parseJson, h, skipWs]



/-- Property access `j[k]` on a parsed object (JS object member lookup;
the records built here never repeat a key). -/
def getField (j : Json) (k : String) : Option Json :=
  match j with
  | .obj ms => (ms.find? fun p => p.1 == k).map Prod.snd
  | _ => none

/-- Index access `j[i]` on a parsed array. -/
def getIndex (j : Json) (i : Nat) : Option Json :=
  match j with
  | .arr xs => xs[i]?
  | _ => none

/-- The string payload of a parsed string value. -/
def getStr : Json → Option String
  | .str s => some s
  | _ => none

/-- `parsed.messages[2].content`: the assistant content of a parsed
training record. -/
def assistantContent (j : Json) : Option String :=
  (getField j "messages").bind fun ms =>
    (getIndex ms 2).bind fun m => (getField m "content").bind getStr

/-- C8: a training-file record built from any sample text — embedded
newlines, quotation marks and other control characters included — when
serialized by the Launcher and parsed back as JSON, yields an assistant
content (`messages[2].content`) exactly equal to the original text. -/
theorem training_record_roundtrip (t : String) :
    (parseJson (recordLine t)).bind assistantContent = some t := by
  rw [recordLine, parseJson_stringifyJson (trainingRecord t)]
  simp [assistantContent, trainingRecord, getField, getIndex, getStr, List.find?]

end ReportFT
